import Mathlib

set_option autoImplicit false

/-!
Shallow embedding of the Sherpa repository's scoring engine, persistence
helpers and plot construction, together with theorems settling the spec
claims about them.  Python dicts are modelled as association lists (keys in
insertion order, unique by construction in Python), Python floats as
rationals, and file-system state as a map from path to the file content
stored there.
-/

namespace Sherpa

/-- A Python dict mapping criterion keys to raw scores, e.g. `service_scores`. -/
abbrev ScoreMap := List (String × ℚ)

/-- One entry of `custom_weights`: a dict that may or may not carry the
`weight` and `type` fields (the source reads them with `.get` and defaults). -/
structure WeightData where
  weight : Option ℚ
  type : Option String
deriving DecidableEq, Repr

/-- The source's `weight_data.get('weight', 0.5)`. -/
def WeightData.getWeight (wd : WeightData) : ℚ :=
  wd.weight.getD (1/2)

/-- The source's `weight_data.get('type', 'positive')`. -/
def WeightData.getType (wd : WeightData) : String :=
  wd.type.getD ("positive")

/-- Dict lookup on an association list: the value at the first matching key. -/
def lookupKey {α : Type} (m : List (String × α)) (k : String) : Option α :=
  (m.find? (fun e => e.1 == k)).map (fun e => e.2)

/-- The per-key weighted score appended to `weighted_scores` in
`calculate_scores` (app.py lines 705-716): `positive` gives
`score * weight`, `negative` gives `(10 - score) * weight`, and any other
type string falls to the bidirectional `else` branch. -/
def contribution (score : ℚ) (weight_data : WeightData) : ℚ :=
  let weight := weight_data.getWeight
  let criteria_type := weight_data.getType
  if criteria_type = "positive" then score * weight
  else if criteria_type = "negative" then (10 - score) * weight
  else if score ≥ 5 then score * weight
  else (10 - score) * weight * (-1)

/-- The `weighted_scores` list built by iterating `additional_scores.items()`
and keeping the keys that are present in `custom_weights`. -/
def weighted_scores (additional_scores : ScoreMap)
    (custom_weights : List (String × WeightData)) : List ℚ :=
  additional_scores.filterMap
    (fun e => (lookupKey custom_weights e.1).map (fun wd => contribution e.2 wd))

/-- The `additional_score` computed by `calculate_scores`: `0` unless both
maps are non-empty, else `sum(weighted_scores) / (len(weighted_scores) * 5)`
when `weighted_scores` is non-empty. -/
def additionalScoreOf (additional_scores : ScoreMap)
    (custom_weights : List (String × WeightData)) : ℚ :=
  if additional_scores.isEmpty || custom_weights.isEmpty then 0
  else
    let ws := weighted_scores additional_scores custom_weights
    if ws.isEmpty then 0 else ws.sum / ((ws.length : ℚ) * 5)

/-- The group average computed in `calculate_scores`:
`sum(scores.values()) / len(scores) if scores else 0`. -/
def avgOf (scores : ScoreMap) : ℚ :=
  if scores.isEmpty then 0 else (scores.map Prod.snd).sum / (scores.length : ℚ)

/-- The tier ladder at the end of `calculate_scores` (app.py lines 727-735),
evaluated high to low, first match wins. -/
def tierFor (total_score : ℚ) : String :=
  if total_score ≥ 17/2 then "Tier A"
  else if total_score ≥ 7 then "Tier B"
  else if total_score ≥ 11/2 then "Tier C"
  else "Tier D"

/-- The dict returned by `calculate_scores`. -/
structure ScoresResult where
  service_research_score : ℚ × ℚ
  intelligence_resource_score : ℚ × ℚ
  total_score : ℚ
  tier : String
  base_score : ℚ
  additional_score : ℚ
  service_avg : ℚ
  research_avg : ℚ
  intelligence_avg : ℚ
  resource_avg : ℚ
deriving DecidableEq, Repr

/-- `calculate_scores` from `src/backup_deprecated/app.py` (lines 683-748):
group averages, the two plotted axis pairs `(avg * 2) - 10`, the additional
criteria score, `base_score` as the mean of the four group averages,
`total_score = base_score + additional_score`, and the tier ladder. -/
def calculate_scores (service_scores research_scores intelligence_scores
    resource_scores : ScoreMap) (additional_scores : ScoreMap)
    (custom_weights : List (String × WeightData)) : ScoresResult :=
  let service_avg := avgOf service_scores
  let research_avg := avgOf research_scores
  let intelligence_avg := avgOf intelligence_scores
  let resource_avg := avgOf resource_scores
  let service_research_score := ((service_avg * 2) - 10, (research_avg * 2) - 10)
  let intelligence_resource_score :=
    ((intelligence_avg * 2) - 10, (resource_avg * 2) - 10)
  let additional_score := additionalScoreOf additional_scores custom_weights
  let base_score := (service_avg + research_avg + intelligence_avg + resource_avg) / 4
  let total_score := base_score + additional_score
  { service_research_score := service_research_score
    intelligence_resource_score := intelligence_resource_score
    total_score := total_score
    tier := tierFor total_score
    base_score := base_score
    additional_score := additional_score
    service_avg := service_avg
    research_avg := research_avg
    intelligence_avg := intelligence_avg
    resource_avg := resource_avg }

/-- The three directional types named by the spec for additional criteria. -/
inductive CType where
  | positive
  | negative
  | bidirectional
deriving DecidableEq, Repr

/-- The type strings as they appear in framework files. -/
def CType.toString : CType → String
  | .positive => "positive"
  | .negative => "negative"
  | .bidirectional => "bidirectional"

/-- Contribution of one key as claim C1 words it: `positive` gives
`score * weight`, `negative` gives `(10 - score) * weight`, `bidirectional`
gives `score * weight` when `score >= 5` and `(10 - score) * weight * (-1)`
otherwise. -/
def specContribution (score weight : ℚ) : CType → ℚ
  | .positive => score * weight
  | .negative => (10 - score) * weight
  | .bidirectional =>
    if score ≥ 5 then score * weight else (10 - score) * weight * (-1)

/-- Additional score as claim C1 words it: contributions come from exactly
the keys present in both maps; with `n` their count, the score is
`sum / (n * 5)` when `n > 0` and `0` when `n = 0`. -/
def specAdditionalScore (scores : ScoreMap)
    (weights : List (String × (ℚ × CType))) : ℚ :=
  let contribs := scores.filterMap
    (fun e => (lookupKey weights e.1).map
      (fun wt => specContribution e.2 wt.1 wt.2))
  if contribs.length = 0 then 0 else contribs.sum / ((contribs.length : ℚ) * 5)

/-- Inject a typed weight table into the raw dict shape `calculate_scores`
reads, with both fields present. -/
def weightsOfTyped (weights : List (String × (ℚ × CType))) :
    List (String × WeightData) :=
  weights.map (fun e => (e.1, ⟨some e.2.1, some e.2.2.toString⟩))

theorem lookupKey_nil {α : Type} (k : String) : lookupKey ([] : List (String × α)) k = none := rfl

theorem lookupKey_weightsOfTyped (ws : List (String × (ℚ × CType))) (k : String) :
    lookupKey (weightsOfTyped ws) k
      = (lookupKey ws k).map
          (fun wt => (⟨some wt.1, some wt.2.toString⟩ : WeightData)) := by
  induction ws with
  | nil => rfl
  | cons e t ih =>
    by_cases h : e.1 == k
    · simp [lookupKey, weightsOfTyped, List.find?, h]
    · simpa [lookupKey, weightsOfTyped, List.find?, h] using ih

theorem contribution_typed (s w : ℚ) (t : CType) :
    contribution s ⟨some w, some t.toString⟩ = specContribution s w t := by
  cases t <;>
    simp [contribution, specContribution, WeightData.getWeight, WeightData.getType,
      CType.toString]

theorem weighted_scores_typed (scores : ScoreMap)
    (ws : List (String × (ℚ × CType))) :
    weighted_scores scores (weightsOfTyped ws)
      = scores.filterMap
          (fun e => (lookupKey ws e.1).map
            (fun wt => specContribution e.2 wt.1 wt.2)) := by
  induction scores with
  | nil => rfl
  | cons e t ih =>
    simp only [weighted_scores, List.filterMap_cons] at *
    rw [lookupKey_weightsOfTyped]
    cases h : lookupKey ws e.1 with
    | none => simpa [h] using ih
    | some wt => simp [h, contribution_typed, ih]

/-- C1: for every pair of additional-score and additional-weight maps, the
additional score computed by `calculate_scores` is exactly the claim's
formula: contributions come from the keys present in both maps (positive
gives `score * weight`, negative gives `(10 - score) * weight`,
bidirectional gives `score * weight` for `score >= 5` and
`(10 - score) * weight * (-1)` below), and with `n` the count of
contributing keys the additional score is `sum / (n * 5)` for `n > 0` and
`0` for `n = 0`. -/
theorem C1_additional_score_matches_spec
    (service research intelligence resource : ScoreMap)
    (scores : ScoreMap) (weights : List (String × (ℚ × CType))) :
    (calculate_scores service research intelligence resource scores
        (weightsOfTyped weights)).additional_score
      = specAdditionalScore scores weights := by
  show additionalScoreOf scores (weightsOfTyped weights)
        = specAdditionalScore scores weights
  unfold additionalScoreOf specAdditionalScore
  rw [weighted_scores_typed]
  by_cases hs : scores.isEmpty
  · rw [List.isEmpty_iff] at hs
    subst hs
    simp
  · by_cases hw : (weightsOfTyped weights).isEmpty
    · rw [List.isEmpty_iff] at hw
      have hwnil : weights = [] := by
        cases weights with
        | nil => rfl
        | cons e t => simp [weightsOfTyped] at hw
      subst hwnil
      simp [lookupKey_nil, hs]
    · simp only [Bool.not_eq_true] at hs hw
      rw [hs, hw]
      simp only [Bool.or_self, Bool.false_eq_true, if_false]
      by_cases hL : scores.filterMap
          (fun e => (lookupKey weights e.1).map
            (fun wt => specContribution e.2 wt.1 wt.2)) = []
      · simp [hL]
      · rw [if_neg (by simpa using hL),
          if_neg (by simpa [List.length_eq_zero] using hL)]

/-- C2: the tier produced by `calculate_scores` is a pure function of its
total score, given by the first-match high-to-low ladder with inclusive
lower bounds 8.5 / 7.0 / 5.5; the exact boundaries 8.5, 7.0 and 5.5 fall
into the higher tier and 8.4999 falls into Tier B. -/
theorem C2_tier_ladder :
    (∀ service research intelligence resource add w,
        (calculate_scores service research intelligence resource add w).tier
          = tierFor
              (calculate_scores service research intelligence resource add w).total_score)
    ∧ (∀ t : ℚ, 17/2 ≤ t → tierFor t = "Tier A")
    ∧ (∀ t : ℚ, 7 ≤ t → t < 17/2 → tierFor t = "Tier B")
    ∧ (∀ t : ℚ, 11/2 ≤ t → t < 7 → tierFor t = "Tier C")
    ∧ (∀ t : ℚ, t < 11/2 → tierFor t = "Tier D")
    ∧ tierFor (17/2) = "Tier A" ∧ tierFor (84999/10000) = "Tier B"
    ∧ tierFor 7 = "Tier B" ∧ tierFor (11/2) = "Tier C" := by
  have hA : ∀ t : ℚ, 17/2 ≤ t → tierFor t = "Tier A" := by
    intro t h
    rw [tierFor, if_pos (by linarith)]
  have hB : ∀ t : ℚ, 7 ≤ t → t < 17/2 → tierFor t = "Tier B" := by
    intro t h h'
    rw [tierFor, if_neg (by linarith), if_pos (by linarith)]
  have hC : ∀ t : ℚ, 11/2 ≤ t → t < 7 → tierFor t = "Tier C" := by
    intro t h h'
    rw [tierFor, if_neg (by linarith), if_neg (by linarith), if_pos (by linarith)]
  have hD : ∀ t : ℚ, t < 11/2 → tierFor t = "Tier D" := by
    intro t h
    rw [tierFor, if_neg (by linarith), if_neg (by linarith), if_neg (by linarith)]
  exact ⟨fun _ _ _ _ _ _ => rfl, hA, hB, hC, hD,
    hA (17/2) le_rfl, hB (84999/10000) (by norm_num) (by norm_num),
    hB 7 le_rfl (by norm_num), hC (11/2) le_rfl (by norm_num)⟩

theorem C2_tier_ladder_witness :
    tierFor 9 = "Tier A" ∧ tierFor 8 = "Tier B" ∧ tierFor 6 = "Tier C"
    ∧ tierFor 3 = "Tier D" :=
  ⟨C2_tier_ladder.2.1 9 (by norm_num),
   C2_tier_ladder.2.2.1 8 (by norm_num) (by norm_num),
   C2_tier_ladder.2.2.2.1 6 (by norm_num) (by norm_num),
   C2_tier_ladder.2.2.2.2.1 3 (by norm_num)⟩

theorem scenario_eval :
    calculate_scores [("a",10),("b",0)] [("c",5)] [("d",10)] [("e",0)] [] []
      = { service_research_score := (0, 0)
          intelligence_resource_score := (10, -10)
          total_score := 5
          tier := "Tier D"
          base_score := 5
          additional_score := 0
          service_avg := 5
          research_avg := 5
          intelligence_avg := 10
          resource_avg := 0 } := by
  simp only [calculate_scores, additionalScoreOf]
  norm_num [avgOf, tierFor]

/-- C3 counterexample: on service=(a:10,b:0), research=(c:5),
intelligence=(d:10), resource=(e:0) with no additional criteria, the code
does not return base score 6.25 and Tier C — the resource group average is
0, not 5, so the base score is mean(5,5,10,0) = 5. -/
theorem C3_counterexample :
    ¬ ((calculate_scores [("a",10),("b",0)] [("c",5)] [("d",10)] [("e",0)] []
          []).base_score = 25/4
       ∧ (calculate_scores [("a",10),("b",0)] [("c",5)] [("d",10)] [("e",0)] []
          []).tier = "Tier C") := by
  rw [scenario_eval]
  intro h
  exact absurd h.1 (by norm_num)

/-- C3 amended: on that input `calculate_scores` returns base score 5,
total score 5, Tier D, service-research axis (0,0) and
intelligence-resource axis (10,-10). -/
theorem C3_end_to_end_scenario :
    calculate_scores [("a",10),("b",0)] [("c",5)] [("d",10)] [("e",0)] [] []
      = { service_research_score := (0, 0)
          intelligence_resource_score := (10, -10)
          total_score := 5
          tier := "Tier D"
          base_score := 5
          additional_score := 0
          service_avg := 5
          research_avg := 5
          intelligence_avg := 10
          resource_avg := 0 } :=
  scenario_eval

/-- C4 counterexample: with an empty service group the produced axis value
is -10, not 0 — the guarded average is 0 and the plot transform maps it to
(0 * 2) - 10 = -10. -/
theorem C4_counterexample :
    (calculate_scores [] [("c",5)] [("d",5)] [("e",5)] []
        []).service_research_score.1 = -10
    ∧ ((-10 : ℚ) ≠ 0) := by
  constructor
  · simp only [calculate_scores, additionalScoreOf]
    norm_num [avgOf]
  · norm_num

/-- C4 amended: an empty criteria group never causes a division (its
average is the guarded 0), and the axis coordinate produced for it is
(0 * 2) - 10 = -10, for each of the four groups. -/
theorem C4_empty_group_guarded
    (service research intelligence resource add : ScoreMap)
    (w : List (String × WeightData)) :
    avgOf [] = 0
    ∧ (service = [] →
        (calculate_scores service research intelligence resource add w).service_avg = 0
        ∧ (calculate_scores service research intelligence resource add
            w).service_research_score.1 = -10)
    ∧ (research = [] →
        (calculate_scores service research intelligence resource add w).research_avg = 0
        ∧ (calculate_scores service research intelligence resource add
            w).service_research_score.2 = -10)
    ∧ (intelligence = [] →
        (calculate_scores service research intelligence resource add w).intelligence_avg = 0
        ∧ (calculate_scores service research intelligence resource add
            w).intelligence_resource_score.1 = -10)
    ∧ (resource = [] →
        (calculate_scores service research intelligence resource add w).resource_avg = 0
        ∧ (calculate_scores service research intelligence resource add
            w).intelligence_resource_score.2 = -10) := by
  refine ⟨rfl, ?_, ?_, ?_, ?_⟩ <;>
    (intro h; subst h; constructor) <;>
    norm_num [calculate_scores, avgOf]

theorem C4_empty_group_guarded_witness :
    avgOf [] = 0
    ∧ ((calculate_scores [] [] [] [] [] []).service_avg = 0
       ∧ (calculate_scores [] [] [] [] [] []).service_research_score.1 = -10)
    ∧ ((calculate_scores [] [] [] [] [] []).research_avg = 0
       ∧ (calculate_scores [] [] [] [] [] []).service_research_score.2 = -10)
    ∧ ((calculate_scores [] [] [] [] [] []).intelligence_avg = 0
       ∧ (calculate_scores [] [] [] [] [] []).intelligence_resource_score.1 = -10)
    ∧ ((calculate_scores [] [] [] [] [] []).resource_avg = 0
       ∧ (calculate_scores [] [] [] [] [] []).intelligence_resource_score.2 = -10) :=
  ⟨(C4_empty_group_guarded [] [] [] [] [] []).1,
   (C4_empty_group_guarded [] [] [] [] [] []).2.1 rfl,
   (C4_empty_group_guarded [] [] [] [] [] []).2.2.1 rfl,
   (C4_empty_group_guarded [] [] [] [] [] []).2.2.2.1 rfl,
   (C4_empty_group_guarded [] [] [] [] [] []).2.2.2.2 rfl⟩

theorem lookupKey_singleton {α : Type} (k : String) (v : α) :
    lookupKey [(k, v)] k = some v := by
  simp [lookupKey, List.find?]

/-- C5 counterexample: a single positive criterion with weight 1 and score
10 yields additional score 10 * 1 / (1 * 5) = 2, which exceeds the claimed
bound weight / 5 = 0.2. -/
theorem C5_counterexample :
    (calculate_scores [] [] [] [] [("k",10)]
        [("k", ⟨some 1, some ("positive")⟩)]).additional_score = 2
    ∧ ¬ ((2 : ℚ) ≤ 1/5) := by
  constructor
  · show additionalScoreOf [("k",10)] [("k", ⟨some 1, some ("positive")⟩)] = 2
    simp only [additionalScoreOf, weighted_scores, List.filterMap_cons,
      List.filterMap_nil, lookupKey_singleton]
    norm_num [contribution, WeightData.getWeight, WeightData.getType]
  · norm_num

/-- C5 amended: a single contributing positive criterion with weight w > 0
and raw score s in [0,10] yields additional score s * w / 5, which is at
most 2 * w — the division by n * 5 rescales so that a maximally-scored
single criterion contributes at most twice its weight to the total. -/
theorem C5_single_positive_criterion
    (service research intelligence resource : ScoreMap) (k : String)
    (s w : ℚ) (hw : 0 < w) (hs0 : 0 ≤ s) (hs10 : s ≤ 10) :
    (calculate_scores service research intelligence resource [(k, s)]
        [(k, ⟨some w, some ("positive")⟩)]).additional_score = s * w / 5
    ∧ (calculate_scores service research intelligence resource [(k, s)]
        [(k, ⟨some w, some ("positive")⟩)]).additional_score ≤ 2 * w := by
  have he : (calculate_scores service research intelligence resource [(k, s)]
      [(k, ⟨some w, some ("positive")⟩)]).additional_score = s * w / 5 := by
    show additionalScoreOf [(k, s)] [(k, ⟨some w, some ("positive")⟩)] = s * w / 5
    simp only [additionalScoreOf, weighted_scores, List.filterMap_cons,
      List.filterMap_nil, lookupKey_singleton]
    norm_num [contribution, WeightData.getWeight, WeightData.getType]
  refine ⟨he, ?_⟩
  rw [he, div_le_iff₀ (by norm_num : (0:ℚ) < 5)]
  nlinarith [mul_le_mul_of_nonneg_right hs10 hw.le]

theorem C5_single_positive_criterion_witness :
    ((0:ℚ) < 1) ∧ ((0:ℚ) ≤ 7) ∧ ((7:ℚ) ≤ 10)
    ∧ ((calculate_scores [] [] [] [] [("k",7)]
          [("k", ⟨some 1, some ("positive")⟩)]).additional_score = 7 * 1 / 5
       ∧ (calculate_scores [] [] [] [] [("k",7)]
          [("k", ⟨some 1, some ("positive")⟩)]).additional_score ≤ 2 * 1) :=
  ⟨by norm_num, by norm_num, by norm_num,
   C5_single_positive_criterion [] [] [] [] ("k") 7 1 (by norm_num) (by norm_num)
     (by norm_num)⟩

/-- C10: for each additional-criteria key present in both maps, a weight
record missing its weight field behaves as weight 0.5, one missing its
type field behaves as type positive, and any type string other than
exactly positive or negative falls through to the bidirectional rule. -/
theorem C10_defaults_and_fallthrough (s w : ℚ) (t : String)
    (hp : t ≠ "positive") (hn : t ≠ "negative") :
    contribution s ⟨none, some t⟩ = contribution s ⟨some (1/2), some t⟩
    ∧ contribution s ⟨some w, none⟩ = contribution s ⟨some w, some ("positive")⟩
    ∧ contribution s ⟨some w, some t⟩
        = (if s ≥ 5 then s * w else (10 - s) * w * (-1)) := by
  refine ⟨rfl, rfl, ?_⟩
  simp [contribution, WeightData.getType, WeightData.getWeight, hp, hn]

theorem C10_defaults_and_fallthrough_witness :
    ("typo" ≠ "positive") ∧ ("typo" ≠ "negative")
    ∧ (contribution 3 ⟨none, some ("typo")⟩
         = contribution 3 ⟨some (1/2), some ("typo")⟩
       ∧ contribution 3 ⟨some 2, none⟩ = contribution 3 ⟨some 2, some ("positive")⟩
       ∧ contribution 3 ⟨some 2, some ("typo")⟩
           = (if (3:ℚ) ≥ 5 then 3 * 2 else (10 - 3) * 2 * (-1))) :=
  ⟨by decide, by decide,
   C10_defaults_and_fallthrough 3 2 ("typo") (by decide) (by decide)⟩

/-- File-system state: maps a path to the content of the file stored
there, if any. -/
def FS : Type := String → Option String

/-- Reading a file's content. -/
def fsGet (fs : FS) (p : String) : Option String := fs p

/-- Writing a file (creating or overwriting). -/
def fsWrite (fs : FS) (p : String) (c : String) : FS :=
  fun q => if q = p then some c else fs q

/-- `os.remove`. -/
def fsRemove (fs : FS) (p : String) : FS :=
  fun q => if q = p then none else fs q

/-- A file system with no files. -/
def fsEmpty : FS := fun _ => none

/-- `os.path.basename`: the part of the path after the last slash. -/
def basename (p : String) : String :=
  (p.splitOn ("/")).getLastD p

/-- The backup path used by `backup_framework`:
`os.path.join('backup/frameworks', filename)`. -/
def backupFrameworkPath (p : String) : String :=
  "backup/frameworks/" ++ basename p

/-- `backup_framework` (app.py lines 103-115): copy the file at `filepath`
to `backup/frameworks/<basename>`; a failing copy (missing source) is
caught and reported as `False`. -/
def backup_framework (fs : FS) (filepath : String) : FS × Bool :=
  match fsGet fs filepath with
  | some content => (fsWrite fs (backupFrameworkPath filepath) content, true)
  | none => (fs, false)

/-- `delete_framework` (app.py lines 222-233): back up, then remove; a
missing file makes `os.remove` raise, caught and reported as `False`. -/
def delete_framework (fs : FS) (filepath : String) : FS × Bool :=
  let fs1 := (backup_framework fs filepath).1
  match fsGet fs1 filepath with
  | some _ => (fsRemove fs1 filepath, true)
  | none => (fs1, false)

/-- `save_framework` (app.py lines 117-145) with an explicit target
filename, `content` standing for the serialized framework document: if the
target already exists it is backed up first, then the file is written. -/
def save_framework (fs : FS) (filename : String) (content : String) : FS × Bool :=
  let fs1 :=
    if (fsGet fs filename).isSome then (backup_framework fs filename).1 else fs
  (fsWrite fs1 filename content, true)

/-- C6: for every framework file path whose file exists (and which does not
itself lie at its own backup path), `delete_framework` leaves a backup file
at backup/frameworks/<basename> with content byte-identical to the
pre-delete content and removes the original; and `save_framework` on an
existing target backs the old content up before overwriting. -/
theorem C6_backup_before_destroy (fs : FS) (p : String) (c : String)
    (cnew : String) (hp : fsGet fs p = some c)
    (hbp : backupFrameworkPath p ≠ p) :
    (fsGet (delete_framework fs p).1 (backupFrameworkPath p) = some c
     ∧ fsGet (delete_framework fs p).1 p = none
     ∧ (delete_framework fs p).2 = true)
    ∧ (fsGet (save_framework fs p cnew).1 (backupFrameworkPath p) = some c
       ∧ fsGet (save_framework fs p cnew).1 p = some cnew) := by
  have hpb : p ≠ backupFrameworkPath p := hbp.symm
  have hp' : fs p = some c := hp
  unfold delete_framework save_framework backup_framework
  simp only [fsGet, fsWrite, hp', hpb, if_neg, Option.isSome_some, if_true]
  simp [fsGet, fsWrite, fsRemove, hbp, hpb, hp']

theorem C6_backup_before_destroy_witness :
    (fsGet (fsWrite fsEmpty ("frameworks/demo.json") ("old"))
        ("frameworks/demo.json") = some "old")
    ∧ (backupFrameworkPath ("frameworks/demo.json") ≠ "frameworks/demo.json")
    ∧ ((fsGet (delete_framework (fsWrite fsEmpty ("frameworks/demo.json") ("old"))
          ("frameworks/demo.json")).1
          (backupFrameworkPath ("frameworks/demo.json")) = some "old"
        ∧ fsGet (delete_framework (fsWrite fsEmpty ("frameworks/demo.json") ("old"))
          ("frameworks/demo.json")).1 ("frameworks/demo.json") = none
        ∧ (delete_framework (fsWrite fsEmpty ("frameworks/demo.json") ("old"))
          ("frameworks/demo.json")).2 = true)
       ∧ (fsGet (save_framework (fsWrite fsEmpty ("frameworks/demo.json") ("old"))
            ("frameworks/demo.json") ("new")).1
            (backupFrameworkPath ("frameworks/demo.json")) = some "old"
          ∧ fsGet (save_framework (fsWrite fsEmpty ("frameworks/demo.json") ("old"))
            ("frameworks/demo.json") ("new")).1 ("frameworks/demo.json")
              = some "new")) :=
  ⟨by simp [fsGet, fsWrite, fsEmpty], by decide,
   C6_backup_before_destroy (fsWrite fsEmpty ("frameworks/demo.json") ("old"))
     ("frameworks/demo.json") ("old") ("new")
     (by simp [fsGet, fsWrite, fsEmpty]) (by decide)⟩

/-- A criterion value as persisted in a framework file: either a plain
string (early format, possibly a string-encoded record) or a record;
record fields are restricted to the string-valued entries the
normalization inspects. -/
inductive CritVal where
  | str (s : String)
  | record (fields : List (String × String))
deriving DecidableEq, Repr

/-- Python's key-membership test on a record. -/
def hasKey (fields : List (String × String)) (k : String) : Bool :=
  (lookupKey fields k).isSome

/-- Python's `str.startswith`. -/
def strStartsWith (s pre : String) : Bool :=
  pre.toList.isPrefixOf s.toList

/-- Python's `str.endswith`. -/
def strEndsWith (s suf : String) : Bool :=
  suf.toList.reverse.isPrefixOf s.toList.reverse

/-- Helper for the substring test: does `sub` occur in the char list? -/
def containsAux (sub : List Char) : List Char → Bool
  | [] => sub.isEmpty
  | c :: rest => sub.isPrefixOf (c :: rest) || containsAux sub rest

/-- Python's substring test `sub in s`. -/
def containsSub (s sub : String) : Bool :=
  containsAux sub.toList s.toList

/-- The single-quote character. -/
def sq : Char := Char.ofNat 39

/-- The opening-brace character. -/
def lbrace : Char := Char.ofNat 123

/-- The closing-brace character. -/
def rbrace : Char := Char.ofNat 125

/-- Drop leading spaces. -/
def skipSpaces : List Char → List Char
  | c :: rest => if c = ' ' then skipSpaces rest else c :: rest
  | [] => []

/-- Parse one single-quoted string literal (no escape sequences), returning
it with the remaining input. -/
def parseQuoted : List Char → Option (String × List Char)
  | c :: rest =>
    if c = sq then
      match rest.dropWhile (fun d => !(d = sq)) with
      | q :: r2 =>
        if q = sq then some (String.mk (rest.takeWhile (fun d => !(d = sq))), r2)
        else none
      | [] => none
    else none
  | [] => none

/-- Parse the entries of a dict literal after the opening brace, fuelled by
the input length. -/
def parseEntries : Nat → List (String × String) → List Char →
    Option (List (String × String))
  | 0, _, _ => none
  | fuel + 1, acc, cs =>
    match parseQuoted (skipSpaces cs) with
    | none => none
    | some (k, cs1) =>
      match skipSpaces cs1 with
      | c :: cs3 =>
        if c = ':' then
          match parseQuoted (skipSpaces cs3) with
          | none => none
          | some (v, cs5) =>
            match skipSpaces cs5 with
            | d :: cs7 =>
              if d = ',' then parseEntries fuel (acc ++ [(k, v)]) cs7
              else if d = rbrace then
                if (skipSpaces cs7).isEmpty then some (acc ++ [(k, v)]) else none
              else none
            | [] => none
        else none
      | [] => none

/-- `ast.literal_eval` as used on string-encoded criteria, modelled for
flat dict literals with single-quoted string keys and values (the shape
persisted framework records take); anything else fails. -/
def pyParseDict (s : String) : Option (List (String × String)) :=
  match skipSpaces s.toList with
  | c :: rest =>
    if c = lbrace then
      match skipSpaces rest with
      | d :: rest2 =>
        if d = rbrace then
          if (skipSpaces rest2).isEmpty then some [] else none
        else parseEntries (s.length + 1) [] (skipSpaces rest)
      | [] => none
    else none
  | [] => none

/-- The criterion normalization in `load_frameworks` (app.py 176-199):
a string that starts with a brace and contains `question` is parsed with
`ast.literal_eval`, with a fallback record on parse failure; any other
string becomes a record with the string as question and an empty
description; values already stored as records are left untouched. -/
def normalizeCriterion (v : CritVal) : CritVal :=
  match v with
  | .str s =>
    if strStartsWith s ("\x7b") && containsSub s ("question") then
      match pyParseDict s with
      | some fields => .record fields
      | none => .record [("question", s), ("description", "")]
    else .record [("question", s), ("description", "")]
  | .record fields => .record fields

/-- The additional-criteria normalization in `load_frameworks`
(app.py 201-208): a record with a description but no question gets the
question copied from the description; one with a question but no
description gets an empty description; non-record values are untouched. -/
def normalizeAdditional (v : CritVal) : CritVal :=
  match v with
  | .record fields =>
    if !(hasKey fields ("question")) && hasKey fields ("description") then
      .record (fields ++ [("question", (lookupKey fields ("description")).getD (""))])
    else if !(hasKey fields ("description")) && hasKey fields ("question") then
      .record (fields ++ [("description", "")])
    else .record fields
  | .str s => .str s

/-- A framework document as parsed from JSON, restricted to the fields the
loader inspects. -/
structure FrameworkDoc where
  active : Option Bool
  criteria : List (String × List (String × CritVal))
  additional_criteria : List (String × CritVal)
deriving DecidableEq, Repr

/-- The outcome of opening and JSON-parsing one file: an IO failure on
open, a `json.JSONDecodeError`, or the parsed document. -/
inductive FileRead (α : Type) where
  | unreadable
  | malformed
  | parsed (doc : α)
deriving DecidableEq, Repr

/-- The per-framework transformation `load_frameworks` applies to a parsed
document: default the active flag and normalize all criteria. -/
def normalizeFramework (fw : FrameworkDoc) : FrameworkDoc :=
  { active := some (fw.active.getD true)
    criteria := fw.criteria.map
      (fun cat => (cat.1, cat.2.map (fun e => (e.1, normalizeCriterion e.2))))
    additional_criteria :=
      fw.additional_criteria.map (fun e => (e.1, normalizeAdditional e.2)) }

/-- `load_frameworks` (app.py 147-220) over a directory listing: keep the
`.json` files, skip files that fail to open or to parse, default the
active flag, drop inactive frameworks when `only_active`, and normalize
the criteria of each kept framework. -/
def load_frameworks (only_active : Bool)
    (files : List (String × FileRead FrameworkDoc)) : List FrameworkDoc :=
  files.filterMap (fun f =>
    if strEndsWith f.1 (".json") then
      match f.2 with
      | .parsed fw =>
        if only_active && !(fw.active.getD true) then none
        else some (normalizeFramework fw)
      | _ => none
    else none)

/-- A compass as returned by `load_compasses`: the parsed document plus
the injected enabled flag. -/
structure LoadedCompass (α : Type) where
  doc : α
  enabled : Bool
deriving DecidableEq, Repr

/-- `load_compasses` (app.py 279-304): keep the `.json` files, skip files
that fail to open or to parse, and mark each loaded compass enabled. -/
def load_compasses {α : Type} (files : List (String × FileRead α)) :
    List (LoadedCompass α) :=
  files.filterMap (fun f =>
    if strEndsWith f.1 (".json") then
      match f.2 with
      | .parsed d => some ⟨d, true⟩
      | _ => none
    else none)

/-- C7 counterexample: a framework whose criterion is already persisted as
a record missing its description is returned by `load_frameworks` with
that criterion still missing the description key — the normalization only
converts plain strings and never touches values already stored as
records. -/
theorem C7_counterexample :
    load_frameworks false
        [("f.json", FileRead.parsed
          ⟨some true, [("service", [("k", CritVal.record [("question", "q")])])], []⟩)]
      = [⟨some true, [("service", [("k", CritVal.record [("question", "q")])])], []⟩]
    ∧ hasKey [("question", "q")] ("description") = false := by
  constructor <;> rfl

/-- C7 amended: `load_frameworks` normalizes every parsed framework;
criterion values stored as plain strings become records carrying both
question and description (with a string that looks like a serialized
record being structurally parsed when parsing succeeds, the parsed record
used as-is); values already stored as records are left unchanged; an
additional criterion with a description but no question gets the question
copied from the description, and one with a question but no description
gets an empty description. -/
theorem C7_normalization_amended :
    (∀ fw, load_frameworks false [("f.json", FileRead.parsed fw)]
        = [normalizeFramework fw])
    ∧ (∀ s, (strStartsWith s ("\x7b") && containsSub s ("question")) = false →
        normalizeCriterion (.str s)
          = .record [("question", s), ("description", "")])
    ∧ (∀ s, (strStartsWith s ("\x7b") && containsSub s ("question")) = true →
        pyParseDict s = none →
        normalizeCriterion (.str s)
          = .record [("question", s), ("description", "")])
    ∧ (∀ s fields, (strStartsWith s ("\x7b") && containsSub s ("question")) = true →
        pyParseDict s = some fields →
        normalizeCriterion (.str s) = .record fields)
    ∧ (∀ fields, normalizeCriterion (.record fields) = .record fields)
    ∧ (∀ fields, hasKey fields ("question") = false →
        hasKey fields ("description") = true →
        normalizeAdditional (.record fields)
          = .record (fields ++
              [("question", (lookupKey fields ("description")).getD (""))]))
    ∧ (∀ fields, hasKey fields ("question") = true →
        hasKey fields ("description") = false →
        normalizeAdditional (.record fields)
          = .record (fields ++ [("description", "")])) := by
  refine ⟨fun fw => rfl, ?_, ?_, ?_, fun fields => rfl, ?_, ?_⟩
  · intro s h
    simp [normalizeCriterion, h]
  · intro s h hp
    simp [normalizeCriterion, h, hp]
  · intro s fields h hp
    simp [normalizeCriterion, h, hp]
  · intro fields hq hd
    simp [normalizeAdditional, hq, hd]
  · intro fields hq hd
    simp [normalizeAdditional, hq, hd]

theorem C7_normalization_amended_witness :
    ((strStartsWith ("plain") ("\x7b") && containsSub ("plain") ("question")) = false
     ∧ normalizeCriterion (.str ("plain"))
         = .record [("question", "plain"), ("description", "")])
    ∧ ((strStartsWith ("\x7bquestion") ("\x7b")
          && containsSub ("\x7bquestion") ("question")) = true
       ∧ pyParseDict ("\x7bquestion") = none
       ∧ normalizeCriterion (.str ("\x7bquestion"))
           = .record [("question", "\x7bquestion"), ("description", "")])
    ∧ ((strStartsWith ("\x7b\x27question\x27: \x27q\x27\x7d") ("\x7b")
          && containsSub ("\x7b\x27question\x27: \x27q\x27\x7d") ("question")) = true
       ∧ pyParseDict ("\x7b\x27question\x27: \x27q\x27\x7d")
           = some [("question", "q")]
       ∧ normalizeCriterion (.str ("\x7b\x27question\x27: \x27q\x27\x7d"))
           = .record [("question", "q")])
    ∧ (hasKey [("description", "d")] ("question") = false
       ∧ hasKey [("description", "d")] ("description") = true
       ∧ normalizeAdditional (.record [("description", "d")])
           = .record ([("description", "d")] ++
               [("question", (lookupKey [("description", "d")] ("description")).getD (""))]))
    ∧ (hasKey [("question", "q")] ("question") = true
       ∧ hasKey [("question", "q")] ("description") = false
       ∧ normalizeAdditional (.record [("question", "q")])
           = .record ([("question", "q")] ++ [("description", "")])) :=
  ⟨⟨by decide, C7_normalization_amended.2.1 ("plain") (by decide)⟩,
   ⟨by decide, by decide,
    C7_normalization_amended.2.2.1 ("\x7bquestion") (by decide) (by decide)⟩,
   ⟨by decide, by decide,
    C7_normalization_amended.2.2.2.1 ("\x7b\x27question\x27: \x27q\x27\x7d")
      [("question", "q")] (by decide) (by decide)⟩,
   ⟨by decide, by decide,
    C7_normalization_amended.2.2.2.2.2.1 [("description", "d")] (by decide) (by decide)⟩,
   ⟨by decide, by decide,
    C7_normalization_amended.2.2.2.2.2.2 [("question", "q")] (by decide) (by decide)⟩⟩

/-- C8: collection loads return exactly the successfully parsed subset: a
file that fails to open or to parse is skipped without affecting the rest
of the load, every parsed `.json` file contributes its document, and
everything returned comes from some parsed `.json` file. -/
theorem C8_partial_load {α : Type} :
    (∀ (pre post : List (String × FileRead FrameworkDoc)) name r,
        (r = FileRead.malformed ∨ r = FileRead.unreadable) →
        load_frameworks false (pre ++ (name, r) :: post)
          = load_frameworks false (pre ++ post))
    ∧ (∀ (pre post : List (String × FileRead α)) name r,
        (r = FileRead.malformed ∨ r = FileRead.unreadable) →
        load_compasses (pre ++ (name, r) :: post) = load_compasses (pre ++ post))
    ∧ (∀ (files : List (String × FileRead FrameworkDoc)) name fw,
        (name, FileRead.parsed fw) ∈ files → strEndsWith name (".json") = true →
        normalizeFramework fw ∈ load_frameworks false files)
    ∧ (∀ (files : List (String × FileRead α)) name (d : α),
        (name, FileRead.parsed d) ∈ files → strEndsWith name (".json") = true →
        (⟨d, true⟩ : LoadedCompass α) ∈ load_compasses files)
    ∧ (∀ (files : List (String × FileRead α)) (c : LoadedCompass α),
        c ∈ load_compasses files →
        c.enabled = true
        ∧ ∃ name, (name, FileRead.parsed c.doc) ∈ files
            ∧ strEndsWith name (".json") = true)
    ∧ (∀ (files : List (String × FileRead FrameworkDoc)) fw',
        fw' ∈ load_frameworks false files →
        ∃ name fw, (name, FileRead.parsed fw) ∈ files
          ∧ strEndsWith name (".json") = true ∧ fw' = normalizeFramework fw) := by
  refine ⟨?_, ?_, ?_, ?_, ?_, ?_⟩
  · intro pre post name r hr
    rcases hr with rfl | rfl <;>
      simp [load_frameworks, List.filterMap_append]
  · intro pre post name r hr
    rcases hr with rfl | rfl <;>
      simp [load_compasses, List.filterMap_append]
  · intro files name fw hmem he
    rw [load_frameworks, List.mem_filterMap]
    exact ⟨(name, FileRead.parsed fw), hmem, by simp [he]⟩
  · intro files name d hmem he
    rw [load_compasses, List.mem_filterMap]
    exact ⟨(name, FileRead.parsed d), hmem, by simp [he]⟩
  · intro files c hc
    rw [load_compasses, List.mem_filterMap] at hc
    obtain ⟨⟨name, r⟩, hmem, hf⟩ := hc
    by_cases he : strEndsWith name (".json") = true
    · cases r with
      | parsed d =>
        simp only [he, if_true] at hf
        simp only [Option.some.injEq] at hf
        subst hf
        exact ⟨rfl, name, hmem, he⟩
      | malformed => simp [he] at hf
      | unreadable => simp [he] at hf
    · simp [he] at hf
  · intro files fw' hf'
    rw [load_frameworks, List.mem_filterMap] at hf'
    obtain ⟨⟨name, r⟩, hmem, hf⟩ := hf'
    by_cases he : strEndsWith name (".json") = true
    · cases r with
      | parsed fw =>
        simp [he] at hf
        subst hf
        exact ⟨name, fw, hmem, he, rfl⟩
      | malformed => simp [he] at hf
      | unreadable => simp [he] at hf
    · simp [he] at hf

theorem C8_partial_load_witness :
    (FileRead.malformed = (FileRead.malformed : FileRead FrameworkDoc)
        ∨ FileRead.malformed = (FileRead.unreadable : FileRead FrameworkDoc))
    ∧ (load_frameworks false
        [("a.json", FileRead.parsed (⟨none, [], []⟩ : FrameworkDoc)),
         ("bad.json", FileRead.malformed)]
        = load_frameworks false
            [("a.json", FileRead.parsed (⟨none, [], []⟩ : FrameworkDoc))])
    ∧ (load_compasses
        [("c.json", FileRead.parsed (0 : ℕ)), ("bad.json", FileRead.unreadable)]
        = load_compasses [("c.json", FileRead.parsed (0 : ℕ))])
    ∧ normalizeFramework (⟨none, [], []⟩ : FrameworkDoc)
        ∈ load_frameworks false
            [("a.json", FileRead.parsed (⟨none, [], []⟩ : FrameworkDoc)),
             ("bad.json", FileRead.malformed)]
    ∧ (⟨0, true⟩ : LoadedCompass ℕ)
        ∈ load_compasses [("c.json", FileRead.parsed (0 : ℕ))]
    ∧ ((⟨0, true⟩ : LoadedCompass ℕ).enabled = true
       ∧ ∃ name, (name, FileRead.parsed (0 : ℕ))
            ∈ [("c.json", FileRead.parsed (0 : ℕ))]
          ∧ strEndsWith name (".json") = true)
    ∧ (∃ name fw, (name, FileRead.parsed fw)
          ∈ [("a.json", FileRead.parsed (⟨none, [], []⟩ : FrameworkDoc))]
        ∧ strEndsWith name (".json") = true
        ∧ normalizeFramework (⟨none, [], []⟩ : FrameworkDoc) = normalizeFramework fw) :=
  ⟨Or.inl rfl,
   (C8_partial_load (α := ℕ)).1
     [("a.json", FileRead.parsed (⟨none, [], []⟩ : FrameworkDoc))] [] "bad.json"
     FileRead.malformed (Or.inl rfl),
   (C8_partial_load (α := ℕ)).2.1 [("c.json", FileRead.parsed (0 : ℕ))] []
     "bad.json" FileRead.unreadable (Or.inr rfl),
   (C8_partial_load (α := ℕ)).2.2.1
     [("a.json", FileRead.parsed (⟨none, [], []⟩ : FrameworkDoc)),
      ("bad.json", FileRead.malformed)] "a.json" ⟨none, [], []⟩
     (by simp) (by decide),
   (C8_partial_load (α := ℕ)).2.2.2.1 [("c.json", FileRead.parsed (0 : ℕ))]
     "c.json" 0 (by simp) (by decide),
   (C8_partial_load (α := ℕ)).2.2.2.2.1 [("c.json", FileRead.parsed (0 : ℕ))]
     ⟨0, true⟩ (by decide),
   (C8_partial_load (α := ℕ)).2.2.2.2.2
     [("a.json", FileRead.parsed (⟨none, [], []⟩ : FrameworkDoc))]
     (normalizeFramework ⟨none, [], []⟩) (by decide)⟩

/-- Minimum of a pandas series of scores, as `Series.min` (the claims only
use it on non-empty data). -/
def seriesMin : List ℚ → ℚ
  | [] => 0
  | x :: xs => xs.foldl min x

/-- Maximum of a pandas series of scores, as `Series.max`. -/
def seriesMax : List ℚ → ℚ
  | [] => 0
  | x :: xs => xs.foldl max x

/-- Python's `int()` truncation toward zero on a rational. -/
def pyInt (q : ℚ) : ℤ :=
  if 0 ≤ q then ⌊q⌋ else -⌊-q⌋

/-- One bubble's rgb components in `create_subnet_plot`
(src/app_csv_optimized.py lines 344-357): red-to-green interpolation of
the normalized value with clamping into [0, 255]. -/
def bubbleColor (val : ℚ) : ℤ × ℤ × ℤ :=
  (max 0 (min 255 (pyInt (255 * (1 - val)))),
   max 0 (min 255 (pyInt (255 * val))),
   0)

/-- The `norm_values` of `create_subnet_plot` (lines 335-337): the series
`(score - min) / (max - min)` when max and min differ, else the scalar 0.5
applied to every bubble. -/
def normValues (scores : List ℚ) : List ℚ :=
  if seriesMax scores ≠ seriesMin scores then
    scores.map
      (fun s => (s - seriesMin scores) / (seriesMax scores - seriesMin scores))
  else List.replicate scores.length (1/2)

/-- The `bubble_colors` of `create_subnet_plot` (lines 340-357): one color
per normalized value, the scalar branch replicating the color of 0.5. -/
def bubble_colors (scores : List ℚ) : List (ℤ × ℤ × ℤ) :=
  if seriesMax scores ≠ seriesMin scores then
    (normValues scores).map bubbleColor
  else List.replicate scores.length (bubbleColor (1/2))

theorem foldlMin_mem (xs : List ℚ) (x : ℚ) : xs.foldl min x ∈ x :: xs := by
  induction xs generalizing x with
  | nil => simp
  | cons y ys ih =>
    simp only [List.foldl_cons]
    rcases List.mem_cons.mp (ih (min x y)) with h1 | h2
    · rcases min_choice x y with hc | hc
      · rw [h1, hc]
        exact List.mem_cons_self _ _
      · rw [h1, hc]
        exact List.mem_cons_of_mem _ (List.mem_cons_self _ _)
    · exact List.mem_cons_of_mem _ (List.mem_cons_of_mem _ h2)

theorem foldlMax_mem (xs : List ℚ) (x : ℚ) : xs.foldl max x ∈ x :: xs := by
  induction xs generalizing x with
  | nil => simp
  | cons y ys ih =>
    simp only [List.foldl_cons]
    rcases List.mem_cons.mp (ih (max x y)) with h1 | h2
    · rcases max_choice x y with hc | hc
      · rw [h1, hc]
        exact List.mem_cons_self _ _
      · rw [h1, hc]
        exact List.mem_cons_of_mem _ (List.mem_cons_self _ _)
    · exact List.mem_cons_of_mem _ (List.mem_cons_of_mem _ h2)

theorem foldlMin_le_init (xs : List ℚ) (x : ℚ) : xs.foldl min x ≤ x := by
  induction xs generalizing x with
  | nil => simp
  | cons y ys ih => exact le_trans (ih (min x y)) (min_le_left x y)

theorem foldlMin_le (xs : List ℚ) (x a : ℚ) (ha : a ∈ x :: xs) :
    xs.foldl min x ≤ a := by
  induction xs generalizing x with
  | nil =>
    simp only [List.mem_singleton] at ha
    simp [ha]
  | cons y ys ih =>
    simp only [List.foldl_cons]
    rcases List.mem_cons.mp ha with rfl | ha2
    · exact le_trans (foldlMin_le_init ys (min a y)) (min_le_left a y)
    · rcases List.mem_cons.mp ha2 with rfl | ha3
      · exact le_trans (foldlMin_le_init ys (min x a)) (min_le_right x a)
      · exact ih (min x y) (List.mem_cons_of_mem _ ha3)

theorem le_foldlMax_init (xs : List ℚ) (x : ℚ) : x ≤ xs.foldl max x := by
  induction xs generalizing x with
  | nil => simp
  | cons y ys ih => exact le_trans (le_max_left x y) (ih (max x y))

theorem le_foldlMax (xs : List ℚ) (x a : ℚ) (ha : a ∈ x :: xs) :
    a ≤ xs.foldl max x := by
  induction xs generalizing x with
  | nil =>
    simp only [List.mem_singleton] at ha
    simp [ha]
  | cons y ys ih =>
    simp only [List.foldl_cons]
    rcases List.mem_cons.mp ha with rfl | ha2
    · exact le_trans (le_max_left a y) (le_foldlMax_init ys (max a y))
    · rcases List.mem_cons.mp ha2 with rfl | ha3
      · exact le_trans (le_max_right x a) (le_foldlMax_init ys (max x a))
      · exact ih (max x y) (List.mem_cons_of_mem _ ha3)

theorem seriesMin_le (scores : List ℚ) (a : ℚ) (ha : a ∈ scores) :
    seriesMin scores ≤ a := by
  cases scores with
  | nil => cases ha
  | cons x xs => exact foldlMin_le xs x a ha

theorem le_seriesMax (scores : List ℚ) (a : ℚ) (ha : a ∈ scores) :
    a ≤ seriesMax scores := by
  cases scores with
  | nil => cases ha
  | cons x xs => exact le_foldlMax xs x a ha

theorem seriesMin_mem (scores : List ℚ) (h : scores ≠ []) :
    seriesMin scores ∈ scores := by
  cases scores with
  | nil => exact absurd rfl h
  | cons x xs => exact foldlMin_mem xs x

theorem seriesMax_mem (scores : List ℚ) (h : scores ≠ []) :
    seriesMax scores ∈ scores := by
  cases scores with
  | nil => exact absurd rfl h
  | cons x xs => exact foldlMax_mem xs x

/-- C9: for every non-empty collection of plotted entities, each bubble's
normalized color value is `(score - min) / (max - min)` over the
collection, except that when all scores are equal (exactly when max = min,
the division-by-zero case) every bubble gets the fixed neutral value 0.5;
the bubble colors are the red-to-green map of the normalized values. -/
theorem C9_color_normalization (scores : List ℚ) (h : scores ≠ []) :
    ((∀ a ∈ scores, ∀ b ∈ scores, a = b) ↔ seriesMax scores = seriesMin scores)
    ∧ (seriesMax scores ≠ seriesMin scores →
        normValues scores = scores.map
          (fun s => (s - seriesMin scores) / (seriesMax scores - seriesMin scores)))
    ∧ (seriesMax scores = seriesMin scores →
        normValues scores = List.replicate scores.length (1/2))
    ∧ bubble_colors scores = (normValues scores).map bubbleColor := by
  refine ⟨⟨?_, ?_⟩, ?_, ?_, ?_⟩
  · intro hall
    exact hall _ (seriesMax_mem scores h) _ (seriesMin_mem scores h)
  · intro heq a ha b hb
    have h1 : a = seriesMin scores :=
      le_antisymm (heq ▸ le_seriesMax scores a ha) (seriesMin_le scores a ha)
    have h2 : b = seriesMin scores :=
      le_antisymm (heq ▸ le_seriesMax scores b hb) (seriesMin_le scores b hb)
    rw [h1, h2]
  · intro hne
    rw [normValues, if_pos hne]
  · intro heq
    rw [normValues, if_neg (by simp [heq])]
  · by_cases hc : seriesMax scores = seriesMin scores
    · rw [bubble_colors, if_neg (by simp [hc]), normValues, if_neg (by simp [hc]),
        List.map_replicate]
    · rw [bubble_colors, if_pos hc]

theorem C9_color_normalization_witness :
    ([(1 : ℚ), 3] ≠ [])
    ∧ (((∀ a ∈ [(1 : ℚ), 3], ∀ b ∈ [(1 : ℚ), 3], a = b)
          ↔ seriesMax [(1 : ℚ), 3] = seriesMin [(1 : ℚ), 3])
       ∧ (seriesMax [(1 : ℚ), 3] ≠ seriesMin [(1 : ℚ), 3] →
           normValues [(1 : ℚ), 3] = [(1 : ℚ), 3].map
             (fun s => (s - seriesMin [(1 : ℚ), 3])
               / (seriesMax [(1 : ℚ), 3] - seriesMin [(1 : ℚ), 3])))
       ∧ (seriesMax [(1 : ℚ), 3] = seriesMin [(1 : ℚ), 3] →
           normValues [(1 : ℚ), 3] = List.replicate ([(1 : ℚ), 3]).length (1/2))
       ∧ bubble_colors [(1 : ℚ), 3] = (normValues [(1 : ℚ), 3]).map bubbleColor) :=
  ⟨by simp, C9_color_normalization [(1 : ℚ), 3] (by simp)⟩

end Sherpa
